import Mathlib

/-
Verification of the reliability layer of `astrbot_plugin_cot` (src/main.py):
a structural-envelope validator, a retry orchestrator with an idempotency
guard, and a two-tier thought log store.  Texts are embedded as lists of
characters; Python regular expressions used by the plugin are embedded as
executable matchers specialised to the pattern shapes the plugin builds
(the default configuration values of the plugin are mirrored in `cfg0`).
-/

/-- Texts are modelled as lists of characters (Python `str`). -/
abbrev Txt := List Char

/-- Whitespace class: the characters Python's `str.strip` and the regex
class `\s` recognise, restricted to the code points this codebase can
produce. -/
def isPyWhitespace (c : Char) : Bool :=
  c = ' ' || c = '\t' || c = '\n' || c = '\r' ||
  c = '\x0b' || c = '\x0c' || c = ' ' || c = '　'

/-- Python `str.strip()`: drop whitespace from both ends. -/
def pyStrip (s : Txt) : Txt :=
  ((s.dropWhile isPyWhitespace).reverse.dropWhile isPyWhitespace).reverse

/-- Case folding as used by `re.IGNORECASE` / `str.lower` on the ASCII
letters that occur in the plugin's patterns. -/
def toLowerTxt (s : Txt) : Txt := s.map Char.toLower

/-- Whether `pat` is a prefix of `s` (exact characters). -/
def isPrefixOfTxt : Txt → Txt → Bool
  | [], _ => true
  | _ :: _, [] => false
  | a :: as, b :: bs => a = b && isPrefixOfTxt as bs

/-- Whether `pat` is a prefix of `s` up to case (ASCII case folding). -/
def isCiPrefixTxt (pat s : Txt) : Bool :=
  isPrefixOfTxt (toLowerTxt pat) (toLowerTxt s)

/-- Python's `needle in hay` substring test. -/
def containsSubstr (hay needle : Txt) : Bool :=
  match hay with
  | [] => needle.isEmpty
  | _ :: rest => isPrefixOfTxt needle hay || containsSubstr rest needle

/-- Auxiliary scanner for `removeAllOcc`, structurally recursive on a
fuel bound that always dominates the remaining length. -/
def removeAllOccAux (kw : Txt) : Nat → Txt → Txt
  | _, [] => []
  | 0, s => s
  | fuel + 1, c :: rest =>
    if kw ≠ [] ∧ isPrefixOfTxt kw (c :: rest) = true then
      removeAllOccAux kw fuel ((c :: rest).drop kw.length)
    else
      c :: removeAllOccAux kw fuel rest

/-- Python `str.replace(kw, "")`: remove every non-overlapping occurrence
of `kw`, scanning left to right.  An empty pattern leaves the string
unchanged (Python replaces the empty pattern by the empty replacement). -/
def removeAllOcc (kw : Txt) (s : Txt) : Txt :=
  removeAllOccAux kw s.length s

/-- Configuration fields of the plugin consulted by the verified code
paths, mirroring `IntelligentRetryWithCoT.__init__` / `_parse_config`.
`anchorLit` is the literal head of the configured `final_reply_pattern`
(whose default shape `LIT[:：]?\s*` is embedded in `anchorMatchAt`);
`startCore`/`endCore` are the bracket-stripped cores of
`cot_start_tag`/`cot_end_tag`; `incTag` is the stripped
`incantation_tag` core. -/
structure CotConfig where
  anchorLit : Txt
  startCore : Txt
  endCore : Txt
  incTag : Txt
  filteredKeywords : List Txt
  errorKeywords : List Txt
  maxAttempts : Nat
  fallbackReply : Txt
  enableTruncationRetry : Bool
  displayCotText : Bool
  historyLimit : Nat
deriving DecidableEq

/-- The default configuration values hard-coded in `main.py`. -/
def cfg0 : CotConfig where
  anchorLit := "最终的罗莎回复".data
  startCore := "ROSAOS".data
  endCore := "ROSAOS".data
  incTag := "Incantatio".data
  filteredKeywords := ["呵呵，".data, "（……）".data]
  errorKeywords := ["达到最大长度限制而被截断".data, "exception".data, "error".data, "timeout".data]
  maxAttempts := 3
  fallbackReply := "抱歉，服务波动，罗莎暂时无法回应。".data
  enableTruncationRetry := false
  displayCotText := false
  historyLimit := 100

/-- Match of `FINAL_REPLY_PATTERN` (default `最终的罗莎回复[:：]?\s*`,
`re.IGNORECASE`) at the head of `s`: the literal, an optional ASCII or
full-width colon, then a maximal whitespace run.  Returns the matched
length. -/
def anchorMatchAt (cfg : CotConfig) (s : Txt) : Option Nat :=
  if cfg.anchorLit ≠ [] ∧ isCiPrefixTxt cfg.anchorLit s = true then
    let r1 := s.drop cfg.anchorLit.length
    let colonLen : Nat :=
      match r1 with
      | c :: _ => if c = ':' ∨ c = '：' then 1 else 0
      | [] => 0
    let r2 := r1.drop colonLen
    let wsLen := (r2.takeWhile isPyWhitespace).length
    some (cfg.anchorLit.length + colonLen + wsLen)
  else none

/-- Embedding of `FINAL_REPLY_PATTERN.finditer`: the list of (start, end) index pairs
of the non-overlapping matches, scanning left to right.  Structurally
recursive on a fuel bound dominating the remaining length. -/
def findAnchorMatchesAux (cfg : CotConfig) : Nat → Txt → Nat → List (Nat × Nat)
  | _, [], _ => []
  | 0, _, _ => []
  | fuel + 1, c :: rest, pos =>
    match anchorMatchAt cfg (c :: rest) with
    | some len =>
      (pos, pos + len) ::
        findAnchorMatchesAux cfg fuel ((c :: rest).drop (max len 1)) (pos + max len 1)
    | none => findAnchorMatchesAux cfg fuel rest (pos + 1)

/-- All anchor matches of `text`. -/
def anchorMatches (cfg : CotConfig) (text : Txt) : List (Nat × Nat) :=
  findAnchorMatchesAux cfg text.length text 0

/-- Embedding of `_split_by_final_anchor`: split on the last anchor match, stripping
both segments. -/
def splitByFinalAnchor (cfg : CotConfig) (text : Txt) : Option (Txt × Txt) :=
  match (anchorMatches cfg text).getLast? with
  | none => none
  | some (st, en) => some (pyStrip (text.take st), pyStrip (text.drop en))

/-- The opening bracket class of `COT_TAG_DETECTOR`. -/
def cotOpenBrackets : Txt := ['<', '＜', '《', '(', '[', '（']

/-- The closing bracket class of `COT_TAG_DETECTOR`. -/
def cotCloseBrackets : Txt := ['>', '＞', '》', ')', ']', '）']

/-- Core followed by a closing bracket, case-insensitively. -/
def cotCoreClose (core : Txt) (s : Txt) : Bool :=
  isCiPrefixTxt core s &&
    (match s.drop core.length with
     | c :: _ => cotCloseBrackets.contains c
     | [] => false)

/-- One alternative of `COT_TAG_DETECTOR` matching at the head of `s`:
an opening bracket, an optional `/`, the core, a closing bracket. -/
def cotTagVariantAt (core : Txt) (s : Txt) : Bool :=
  match s with
  | c :: rest =>
    cotOpenBrackets.contains c &&
      ((match rest with
        | '/' :: r2 => cotCoreClose core r2
        | _ => false) || cotCoreClose core rest)
  | [] => false

/-- Embedding of `COT_TAG_DETECTOR.search`: some envelope-marker variant (start or end
core, any recognised bracket style, optionally slashed) occurs in `text`. -/
def hasCotTag (cfg : CotConfig) : Txt → Bool
  | [] => false
  | c :: rest =>
    cotTagVariantAt cfg.startCore (c :: rest) ||
    cotTagVariantAt cfg.endCore (c :: rest) ||
    hasCotTag cfg rest

/-- Embedding of `_finalize_reply_only`: strip, then delete every occurrence of each
configured filtered keyword, in list order. -/
def finalizeReplyOnly (keywords : List Txt) (text : Txt) : Txt :=
  keywords.foldl (fun acc kw => removeAllOcc kw acc) (pyStrip text)

/-- The `ValidationResult` of the structural validator: `replyOnly` is a
`(None, reply)` return, `thoughtAndReply` a `(thought, reply)` return,
and `rejected` the `ValueError` raised by the zero-trust interception. -/
inductive ValidationResult where
  | replyOnly (reply : Txt)
  | thoughtAndReply (thought reply : Txt)
  | rejected
deriving DecidableEq

/-- Embedding of `_safe_process_response`: split on the last anchor if present;
otherwise reject when any envelope-marker variant is present; otherwise
pass the cleaned text through. -/
def safeProcessResponse (cfg : CotConfig) (text : Txt) : ValidationResult :=
  if text = [] then .replyOnly []
  else
    match splitByFinalAnchor cfg text with
    | some (thought, reply) =>
      .thoughtAndReply thought (finalizeReplyOnly cfg.filteredKeywords reply)
    | none =>
      if hasCotTag cfg text then .rejected
      else .replyOnly (finalizeReplyOnly cfg.filteredKeywords text)

/-- Search for a pattern that never matches an empty suffix: try every
start position. -/
def searchAny (p : Txt → Bool) : Txt → Bool
  | [] => false
  | c :: rest => p (c :: rest) || searchAny p rest

/-- Count the non-overlapping matches of a pattern (Python `findall`),
given its match length at a position; structurally fuelled. -/
def countMatchesAux (matchLen : Txt → Option Nat) : Nat → Txt → Nat
  | _, [] => 0
  | 0, _ => 0
  | fuel + 1, c :: rest =>
    match matchLen (c :: rest) with
    | some len => 1 + countMatchesAux matchLen fuel ((c :: rest).drop (max len 1))
    | none => countMatchesAux matchLen fuel rest

/-- Count the non-overlapping matches of a pattern in `text`. -/
def countMatches (matchLen : Txt → Option Nat) (text : Txt) : Nat :=
  countMatchesAux matchLen text.length text

/-- Search for `open pattern, lazy content, close pattern` (`re.DOTALL`):
an open match is followed, at or after its end, by a close match. -/
def existsOpenClose (openLenAt : Txt → Option Nat) (closeAt : Txt → Bool) : Txt → Bool
  | [] => false
  | c :: rest =>
    (match openLenAt (c :: rest) with
     | some len => searchAny closeAt ((c :: rest).drop len)
     | none => false) || existsOpenClose openLenAt closeAt rest

/-- Embedding of `INCANTATION_OPEN_PATTERN` (`[<＜]\s*TAG\s*[>＞]`, case-insensitive)
matching at the head of `s`; returns the matched length. -/
def incOpenLenAt (tag : Txt) (s : Txt) : Option Nat :=
  match s with
  | c :: rest =>
    if c = '<' ∨ c = '＜' then
      let ws1 := (rest.takeWhile isPyWhitespace).length
      let r1 := rest.drop ws1
      if isCiPrefixTxt tag r1 then
        let r2 := r1.drop tag.length
        let ws2 := (r2.takeWhile isPyWhitespace).length
        match r2.drop ws2 with
        | d :: _ => if d = '>' ∨ d = '＞' then some (1 + ws1 + tag.length + ws2 + 1) else none
        | [] => none
      else none
    else none
  | [] => none

/-- Embedding of `INCANTATION_CLOSE_PATTERN` (`[<＜]\s*[\\/／]\s*TAG\s*[>＞]`,
case-insensitive) matching at the head of `s`; returns the matched
length. -/
def incCloseLenAt (tag : Txt) (s : Txt) : Option Nat :=
  match s with
  | c :: rest =>
    if c = '<' ∨ c = '＜' then
      let ws1 := (rest.takeWhile isPyWhitespace).length
      match rest.drop ws1 with
      | sl :: r1 =>
        if sl = '\\' ∨ sl = '/' ∨ sl = '／' then
          let ws2 := (r1.takeWhile isPyWhitespace).length
          let r2 := r1.drop ws2
          if isCiPrefixTxt tag r2 then
            let r3 := r2.drop tag.length
            let ws3 := (r3.takeWhile isPyWhitespace).length
            match r3.drop ws3 with
            | d :: _ =>
              if d = '>' ∨ d = '＞' then
                some (1 + ws1 + 1 + ws2 + tag.length + ws3 + 1)
              else none
            | [] => none
          else none
        else none
      | [] => none
    else none
  | [] => none

/-- Embedding of `_has_incomplete_incantation_tag`: some open or close incantation
marker is present, yet either no full `open…close` region exists or the
open and close counts disagree. -/
def hasIncompleteIncantationTag (cfg : CotConfig) (text : Txt) : Bool :=
  if text = [] ∨ cfg.incTag = [] then false
  else
    let opens := countMatches (incOpenLenAt cfg.incTag) text
    let closes := countMatches (incCloseLenAt cfg.incTag) text
    if opens = 0 ∧ closes = 0 then false
    else if !(existsOpenClose (incOpenLenAt cfg.incTag)
              (fun s => (incCloseLenAt cfg.incTag s).isSome) text) then true
    else opens ≠ closes

/-- The literal core of the dossier patterns. -/
def dossierName : Txt := "DOSSIER_UPDATE".data

/-- Python `\w` on the character ranges this codebase exercises (ASCII
alphanumerics, underscore, CJK ideographs). -/
def isWordChar (c : Char) : Bool :=
  c.isAlphanum || c = '_' || (0x4E00 ≤ c.toNat && c.toNat ≤ 0x9FFF)

/-- Check of `\b` right after a word character: the next character is absent or
not a word character. -/
def boundaryOk : Txt → Bool
  | [] => true
  | c :: _ => !isWordChar c

/-- Embedding of `DOSSIER_OPEN_PATTERN` (`[<＜]\s*DOSSIER_UPDATE\b`): matches at the
head of `s`. -/
def dossierOpenAt (s : Txt) : Bool :=
  match s with
  | c :: rest =>
    (c = '<' ∨ c = '＜') &&
      (let r := rest.dropWhile isPyWhitespace
       isCiPrefixTxt dossierName r && boundaryOk (r.drop dossierName.length))
  | [] => false

/-- Embedding of `DOSSIER_CLOSE_PATTERN` (`[<＜]/\s*DOSSIER_UPDATE\b`): matches at the
head of `s`. -/
def dossierCloseAt (s : Txt) : Bool :=
  match s with
  | c :: sl :: rest =>
    (c = '<' ∨ c = '＜') && sl = '/' &&
      (let r := rest.dropWhile isPyWhitespace
       isCiPrefixTxt dossierName r && boundaryOk (r.drop dossierName.length))
  | _ => false

/-- Open half of `DOSSIER_TAG_PATTERN` (`[<＜]\s*DOSSIER_UPDATE\s*[>＞]`)
matching at the head of `s`; returns the matched length. -/
def dossierOpenFullAt (s : Txt) : Option Nat :=
  match s with
  | c :: rest =>
    if c = '<' ∨ c = '＜' then
      let ws1 := (rest.takeWhile isPyWhitespace).length
      let r1 := rest.drop ws1
      if isCiPrefixTxt dossierName r1 then
        let r2 := r1.drop dossierName.length
        let ws2 := (r2.takeWhile isPyWhitespace).length
        match r2.drop ws2 with
        | d :: _ =>
          if d = '>' ∨ d = '＞' then some (1 + ws1 + dossierName.length + ws2 + 1) else none
        | [] => none
      else none
    else none
  | [] => none

/-- Close half of `DOSSIER_TAG_PATTERN` (`[<＜]/\s*DOSSIER_UPDATE\s*[>＞]`)
matches at the head of `s`. -/
def dossierCloseFullAt (s : Txt) : Bool :=
  match s with
  | c :: sl :: rest =>
    (c = '<' ∨ c = '＜') && sl = '/' &&
      (let ws1 := (rest.takeWhile isPyWhitespace).length
       let r1 := rest.drop ws1
       isCiPrefixTxt dossierName r1 &&
         (let r2 := r1.drop dossierName.length
          let ws2 := (r2.takeWhile isPyWhitespace).length
          match r2.drop ws2 with
          | d :: _ => d = '>' ∨ d = '＞'
          | [] => false))
  | _ => false

/-- Embedding of `_has_incomplete_dossier_tag`: an open or close dossier marker is
present with no full `open…close` dossier region. -/
def hasIncompleteDossierTag (text : Txt) : Bool :=
  if text = [] then false
  else if existsOpenClose dossierOpenFullAt dossierCloseFullAt text then false
  else searchAny dossierOpenAt text || searchAny dossierCloseAt text

/-- A token of one alternative of the `_has_api_error_pattern` regex
library: a literal (stored lowercased), a `\s*` run, or a `\d`. -/
inductive PatTok where
  | lit (l : Txt)
  | ws
  | dig

/-- Match a token sequence at the head of a lowercased text. -/
def patMatchAt : List PatTok → Txt → Bool
  | [], _ => true
  | .lit l :: ts, s => isPrefixOfTxt l s && patMatchAt ts (s.drop l.length)
  | .ws :: ts, s => patMatchAt ts (s.dropWhile isPyWhitespace)
  | .dig :: ts, s =>
    match s with
    | c :: r => c.isDigit && patMatchAt ts r
    | [] => false

/-- The error-signature regex library of `_has_api_error_pattern`
(matched case-insensitively). -/
def apiErrorPatterns : List (List PatTok) :=
  [[.lit "error".data, .ws, .lit "code:".data, .ws, .lit "5".data, .dig, .dig],
   [.lit "apitimeouterror".data],
   [.lit "request".data, .ws, .lit "timed".data, .ws, .lit "out".data],
   [.lit "internalservererror".data],
   [.lit "count_token_failed".data],
   [.lit "bad_response_status_code".data],
   [.lit "connection".data, .ws, .lit "error".data],
   [.lit "remote".data, .ws, .lit "disconnected".data],
   [.lit "read".data, .ws, .lit "timeout".data],
   [.lit "connect".data, .ws, .lit "timeout".data]]

/-- Embedding of `_has_api_error_pattern`: the AstrBot failure marker pair, or any
alternative of the regex library. -/
def hasApiErrorPattern (text : Txt) : Bool :=
  if text = [] then false
  else
    (containsSubstr text "AstrBot".data && containsSubstr text "请求失败".data) ||
      apiErrorPatterns.any (fun p => searchAny (patMatchAt p) (toLowerTxt text))

/-- Embedding of `_should_retry_response` on the completion text: blank text, a
configured error keyword, or an error-signature match. -/
def shouldRetryResponse (cfg : CotConfig) (text : Txt) : Bool :=
  if pyStrip text = [] then true
  else if cfg.errorKeywords.any (fun kw => containsSubstr (toLowerTxt text) kw) then true
  else hasApiErrorPattern text

/-- The guard store: the `pending_requests` dict restricted to the field
the response path consults, the per-key `retry_guard` flag. -/
abbrev GuardStore := List (String × Bool)

/-- Key lookup in the store (`request_key in self.pending_requests`,
`stored.get("retry_guard")`). -/
def lookupGuard : GuardStore → String → Option Bool
  | [], _ => none
  | e :: rest, key => if e.1 = key then some e.2 else lookupGuard rest key

/-- Embedding of `_retry_guard_hit`: present and flagged. -/
def retryGuardHit (store : GuardStore) (key : String) : Bool :=
  match lookupGuard store key with
  | some g => g
  | none => false

/-- Embedding of `_set_retry_guard`: flag the entry if present, otherwise no-op. -/
def setRetryGuard : GuardStore → String → GuardStore
  | [], _ => []
  | e :: rest, key => if e.1 = key then (e.1, true) :: rest else e :: setRetryGuard rest key

/-- The fields of an `LLMResponse` the handler reads: the completion
text, whether `role == "err"`, whether the first choice's
`finish_reason` is `"tool_calls"`, and `str(raw_completion)`. -/
structure Resp where
  completionText : Txt
  roleIsErr : Bool
  finishToolCalls : Bool
  rawCompletionStr : Txt
deriving DecidableEq

/-- The `<NO_RESPONSE>` green-light marker. -/
def noResponseMarker : Txt := "<NO_RESPONSE>".data

/-- The truncation marker checked by `_is_truncated`. -/
def truncMarker : Txt := "[TRUNCATED_BY_LENGTH]".data

/-- The `run_agent` failure marker of the early-return branch. -/
def errFailMarker : Txt := "AstrBot 请求失败".data

/-- The sentinel logged when a validated response carried no thought. -/
def noThoughtFlag : Txt := "[NO_THOUGHT_FLAG]".data

/-- The early return for provider-error responses at the top of
`process_and_retry_on_llm_response`. -/
def errShortCircuit (resp : Resp) : Bool :=
  resp.roleIsErr && containsSubstr resp.completionText errFailMarker

/-- The `is_error` check: `str(raw_completion)` lowercased contains `error`
together with `upstream` or `500`. -/
def isErrorRaw (rawStr : Txt) : Bool :=
  let l := toLowerTxt rawStr
  containsSubstr l "error".data && (containsSubstr l "upstream".data || containsSubstr l "500".data)

/-- The structural validator accepted the text (no `ValueError`). -/
def isValidStructure (cfg : CotConfig) (text : Txt) : Bool :=
  match safeProcessResponse cfg text with
  | .rejected => false
  | _ => true

/-- The `needs_retry` trigger condition of
`process_and_retry_on_llm_response`. -/
def needsRetry (cfg : CotConfig) (resp : Resp) : Bool :=
  let raw := resp.completionText
  !resp.finishToolCalls &&
    (pyStrip raw = [] ||
     shouldRetryResponse cfg raw ||
     (cfg.enableTruncationRetry && containsSubstr raw truncMarker) ||
     !isValidStructure cfg raw ||
     isErrorRaw resp.rawCompletionStr ||
     hasIncompleteIncantationTag cfg raw ||
     hasIncompleteDossierTag raw)

/-- The `🤔 …` format used when `display_cot_text` is enabled. -/
def displayCotFormat (thought reply : Txt) : Txt :=
  "🤔 罗莎思考中：\n".data ++ thought ++ "\n\n---\n\n".data ++ reply

/-- The completion text committed by the success branch of the handler. -/
def commitText (cfg : CotConfig) (resp : Resp) : Txt :=
  match safeProcessResponse cfg resp.completionText with
  | .thoughtAndReply t r => if cfg.displayCotText && t ≠ [] then displayCotFormat t r else r
  | .replyOnly r => r
  | .rejected => []

/-- The log payload committed by the success branch of the handler. -/
def commitLog (cfg : CotConfig) (resp : Resp) : Txt :=
  match safeProcessResponse cfg resp.completionText with
  | .thoughtAndReply t _ => if t = [] then noThoughtFlag else t
  | _ => noThoughtFlag

/-- Which return branch of `process_and_retry_on_llm_response` ran. -/
inductive HandlerAction where
  | errReturn
  | untracked
  | guardStop
  | greenLight
  | startRetry
  | commit
deriving DecidableEq

/-- The observable outcome of one `process_and_retry_on_llm_response`
invocation: the store afterwards, the branch taken, whether
`_safe_process_response` was invoked on the text (it runs before every
branch except the provider-error early return), the completion text the
handler leaves synchronously (for `startRetry` the text at decision
time, overwritten later by the retry sequence modelled separately), and
the thought-log entries written. -/
structure HandlerResult where
  store : GuardStore
  action : HandlerAction
  validatorRan : Bool
  newCompletionText : Txt
  loggedEntries : List Txt
deriving DecidableEq

/-- Embedding of `process_and_retry_on_llm_response`: provider-error early return,
untracked-key pass-through, idempotency-guard stop, `<NO_RESPONSE>`
green light, retry trigger (setting the guard), or success commit. -/
def processOnLlmResponse (cfg : CotConfig) (store : GuardStore) (key : String)
    (resp : Resp) : HandlerResult :=
  if errShortCircuit resp then ⟨store, .errReturn, false, resp.completionText, []⟩
  else if lookupGuard store key = none then ⟨store, .untracked, true, resp.completionText, []⟩
  else if retryGuardHit store key then ⟨store, .guardStop, true, resp.completionText, []⟩
  else if containsSubstr resp.completionText noResponseMarker then
    ⟨store, .greenLight, true, resp.completionText, []⟩
  else if needsRetry cfg resp then
    ⟨setRetryGuard store key, .startRetry, true, resp.completionText, []⟩
  else ⟨store, .commit, true, commitText cfg resp, [commitLog cfg resp]⟩

/-- Outcome of `_execute_retry_sequence`: whether an attempt succeeded,
the message set on the event on success, and the thought-log entries
written during the sequence. -/
structure RetrySeqOutcome where
  success : Bool
  message : Option Txt
  logs : List Txt
deriving DecidableEq

/-- Embedding of `_execute_retry_sequence` over the per-attempt provider results
(`none` models a provider exception or absent response): skip an attempt
on empty text, structural rejection, incomplete incantation or dossier
tags, or an error-signature match; otherwise log the thought (or the
no-thought sentinel) and set the reply as the result. -/
def execRetrySequence (cfg : CotConfig) : List (Option Txt) → RetrySeqOutcome
  | [] => ⟨false, none, []⟩
  | r :: rest =>
    match r with
    | none => execRetrySequence cfg rest
    | some t =>
      if t = [] then execRetrySequence cfg rest
      else
        match safeProcessResponse cfg t with
        | .rejected => execRetrySequence cfg rest
        | .replyOnly reply =>
          if hasIncompleteIncantationTag cfg t || hasIncompleteDossierTag t ||
              shouldRetryResponse cfg t then
            execRetrySequence cfg rest
          else ⟨true, some reply, [noThoughtFlag]⟩
        | .thoughtAndReply thought reply =>
          if hasIncompleteIncantationTag cfg t || hasIncompleteDossierTag t ||
              shouldRetryResponse cfg t then
            execRetrySequence cfg rest
          else
            ⟨true,
             some (if cfg.displayCotText && thought ≠ [] then displayCotFormat thought reply
                   else reply),
             [if thought = [] then noThoughtFlag else thought]⟩

/-- One retry attempt fails (provider exception, empty completion,
structural rejection, incomplete tags, or error signature). -/
def attemptFails (cfg : CotConfig) (r : Option Txt) : Bool :=
  match r with
  | none => true
  | some t =>
    t = [] ||
      (match safeProcessResponse cfg t with
       | .rejected => true
       | _ =>
         hasIncompleteIncantationTag cfg t || hasIncompleteDossierTag t ||
           shouldRetryResponse cfg t)

/-- The zero-width space used by `_apply_fallback` as an anti-duplicate
suffix. -/
def zwsp : Char := Char.ofNat 0x200B

/-- Embedding of `_apply_fallback`: the configured fallback text followed by
`int(time.time()) % 3` zero-width spaces. -/
def applyFallback (fallbackReply : Txt) (nowSec : Nat) : Txt :=
  fallbackReply ++ List.replicate (nowSec % 3) zwsp

/-- One record in the per-session hot-tier JSON file. -/
structure ThoughtEntry where
  time : Nat
  content : Txt
deriving DecidableEq

/-- Hot-tier update of `_async_save_thought`: insert the new record at
index 0 and truncate to the configured maximum length. -/
def saveThoughtHot (limit : Nat) (now : Nat) (content : Txt)
    (thoughts : List ThoughtEntry) : List ThoughtEntry :=
  if limit < (⟨now, content⟩ :: thoughts : List ThoughtEntry).length then
    (⟨now, content⟩ :: thoughts : List ThoughtEntry).take limit
  else ⟨now, content⟩ :: thoughts

/-- Embedding of the `_async_save_thought` guard plus hot-tier update: empty session ids
and empty contents are dropped. -/
def asyncSaveThought (limit : Nat) (sessionId : Txt) (now : Nat) (content : Txt)
    (thoughts : List ThoughtEntry) : List ThoughtEntry :=
  if sessionId = [] ∨ content = [] then thoughts
  else saveThoughtHot limit now content thoughts

/-- Run `_async_save_thought` over a sequence of (timestamp, content)
entries. -/
def appendAllThoughts (limit : Nat) (sessionId : Txt) (items : List (Nat × Txt))
    (init : List ThoughtEntry) : List ThoughtEntry :=
  items.foldl (fun acc it => asyncSaveThought limit sessionId it.1 it.2 acc) init

/-- Modelled from the spec: the speculative-concurrent retry strategy of
§4.2 is absent from `src/main.py` (which implements only the sequential
strategy), so the batch-size rule is taken from the spec's words:
`min(base*growth^(batch-1), multiplierCap, absoluteCap,
attemptsRemaining)`. -/
def concBatchSize (base growth mcap acap : Nat) (batchIdx remaining : Nat) : Nat :=
  min (min (base * growth ^ (batchIdx - 1)) mcap) (min acap remaining)

/-- Fate of one task of a speculative batch. -/
inductive TaskFate where
  | won
  | discarded
deriving DecidableEq

/-- Modelled from the spec: run one speculative batch over the tasks'
validation outcomes; the first task whose result validates wins and
every other task of the batch is cancelled/discarded. -/
def runConcBatch (outcomes : List Bool) : Option Nat × List TaskFate :=
  match outcomes.findIdx? (fun b => b) with
  | some i =>
    (some i, (List.range outcomes.length).map (fun j => if j = i then .won else .discarded))
  | none => (none, List.replicate outcomes.length .discarded)

/-- Modelled from the spec: the batch loop of the speculative-concurrent
orchestrator, structurally fuelled (each issued batch consumes at least
one attempt, so a fuel equal to the attempt budget suffices). -/
def concOrchestrateAux (base growth mcap acap : Nat) (outcomes : Nat → Nat → Bool) :
    Nat → Nat → Nat → Option (Nat × Nat) × List Nat
  | 0, _, _ => (none, [])
  | fuel + 1, remaining, batchIdx =>
    if concBatchSize base growth mcap acap batchIdx remaining = 0 then (none, [])
    else
      match (runConcBatch ((List.range
          (concBatchSize base growth mcap acap batchIdx remaining)).map (outcomes batchIdx))).1 with
      | some i => (some (batchIdx, i), [concBatchSize base growth mcap acap batchIdx remaining])
      | none =>
        ((concOrchestrateAux base growth mcap acap outcomes fuel
            (remaining - concBatchSize base growth mcap acap batchIdx remaining) (batchIdx + 1)).1,
         concBatchSize base growth mcap acap batchIdx remaining ::
           (concOrchestrateAux base growth mcap acap outcomes fuel
             (remaining - concBatchSize base growth mcap acap batchIdx remaining) (batchIdx + 1)).2)

/-- Modelled from the spec: the speculative-concurrent orchestrator
loop, absent from `src/main.py`.  `outcomes b j` is whether the `j`-th
task of batch `b` validates; batches grow until one wins or the attempt
budget is exhausted.  Returns the winning (batch, task) pair and the
batch sizes issued. -/
def concOrchestrate (base growth mcap acap : Nat) (outcomes : Nat → Nat → Bool)
    (remaining batchIdx : Nat) : Option (Nat × Nat) × List Nat :=
  concOrchestrateAux base growth mcap acap outcomes remaining remaining batchIdx

lemma anchorMatches_nil (cfg : CotConfig) : anchorMatches cfg [] = [] := rfl

lemma hasCotTag_nil (cfg : CotConfig) : hasCotTag cfg [] = false := rfl

lemma removeAllOcc_nil (kw : Txt) : removeAllOcc kw [] = [] := rfl

lemma foldl_removeAllOcc_nil (kws : List Txt) :
    kws.foldl (fun acc kw => removeAllOcc kw acc) [] = [] := by
  induction kws with
  | nil => rfl
  | cons k ks ih => simpa [removeAllOcc_nil] using ih

lemma finalizeReplyOnly_nil (kws : List Txt) : finalizeReplyOnly kws [] = [] :=
  foldl_removeAllOcc_nil kws

lemma removeAllOccAux_of_not_contains (kw : Txt) (fuel : Nat) (s : Txt)
    (hf : s.length ≤ fuel) (h : containsSubstr s kw = false) :
    removeAllOccAux kw fuel s = s := by
  induction fuel generalizing s with
  | zero => cases s <;> rfl
  | succ n ih =>
    cases s with
    | nil => rfl
    | cons c rest =>
      simp only [containsSubstr, Bool.or_eq_false_iff] at h
      simp only [removeAllOccAux, h.1, and_false, if_neg, not_false_eq_true,
        List.length_cons] at *
      rw [if_neg (by simp [h.1])]
      have : rest.length ≤ n := by simpa using hf
      rw [ih rest this h.2]

lemma removeAllOcc_of_not_contains (kw s : Txt) (h : containsSubstr s kw = false) :
    removeAllOcc kw s = s :=
  removeAllOccAux_of_not_contains kw s.length s (Nat.le_refl _) h

lemma foldl_removeAllOcc_id (kws : List Txt) (s : Txt)
    (h : ∀ kw ∈ kws, containsSubstr s kw = false) :
    kws.foldl (fun acc kw => removeAllOcc kw acc) s = s := by
  induction kws with
  | nil => rfl
  | cons k ks ih =>
    have hs : removeAllOcc k s = s := removeAllOcc_of_not_contains k s (h k (by simp))
    simp only [List.foldl_cons, hs]
    exact ih (fun kw hkw => h kw (by simp [hkw]))

/-- C1 (amended): for every text in which the anchor pattern occurs, the
validator returns `ThoughtAndReply` whose thought is the trimmed text
before the start of the last anchor match and whose reply is the trimmed
text after the end of that match with every occurrence of each
configured filtered keyword removed, in configuration order. -/
theorem validate_anchor_split (cfg : CotConfig) (text : Txt) (st en : Nat)
    (h : (anchorMatches cfg text).getLast? = some (st, en)) :
    safeProcessResponse cfg text =
      .thoughtAndReply (pyStrip (text.take st))
        (finalizeReplyOnly cfg.filteredKeywords (pyStrip (text.drop en))) := by
  have hne : text ≠ [] := by
    intro he
    rw [he, anchorMatches_nil] at h
    simp at h
  simp [safeProcessResponse, splitByFinalAnchor, hne, h]

theorem validate_anchor_split_witness :
    (anchorMatches cfg0 "思考最终的罗莎回复：答案".data).getLast? = some (2, 10) ∧
    safeProcessResponse cfg0 "思考最终的罗莎回复：答案".data =
      .thoughtAndReply (pyStrip ("思考最终的罗莎回复：答案".data.take 2))
        (finalizeReplyOnly cfg0.filteredKeywords
          (pyStrip ("思考最终的罗莎回复：答案".data.drop 10))) :=
  ⟨by decide, validate_anchor_split cfg0 "思考最终的罗莎回复：答案".data 2 10 (by decide)⟩

/-- C1 counterexample: under the default configuration the text
`最终的罗莎回复：呵呵，好` has its last (only) anchor match at (0, 8),
yet the validator's reply is not the trimmed text after the match: the
configured filtered keyword `呵呵，` is removed from it. -/
theorem validate_anchor_split_cex :
    (anchorMatches cfg0 "最终的罗莎回复：呵呵，好".data).getLast? = some (0, 8) ∧
    safeProcessResponse cfg0 "最终的罗莎回复：呵呵，好".data ≠
      .thoughtAndReply (pyStrip ("最终的罗莎回复：呵呵，好".data.take 0))
        (pyStrip ("最终的罗莎回复：呵呵，好".data.drop 8)) := by
  decide

/-- C2: a text containing an envelope-marker variant but no occurrence
of the anchor pattern is rejected by the validator (the zero-trust
`ValueError`). -/
theorem validate_tag_without_anchor_rejected (cfg : CotConfig) (text : Txt)
    (hTag : hasCotTag cfg text = true) (hAnchor : anchorMatches cfg text = []) :
    safeProcessResponse cfg text = .rejected := by
  have hne : text ≠ [] := by
    intro he
    rw [he, hasCotTag_nil] at hTag
    exact Bool.false_ne_true hTag
  simp [safeProcessResponse, splitByFinalAnchor, hAnchor, hne, hTag]

theorem validate_tag_without_anchor_rejected_witness :
    hasCotTag cfg0 "《rosaos》嗯".data = true ∧
    anchorMatches cfg0 "《rosaos》嗯".data = [] ∧
    safeProcessResponse cfg0 "《rosaos》嗯".data = .rejected :=
  ⟨by decide, by decide,
    validate_tag_without_anchor_rejected cfg0 "《rosaos》嗯".data (by decide) (by decide)⟩

/-- C7 (amended): a text containing neither an envelope-marker variant
nor an anchor occurrence is returned as `ReplyOnly`, but carrying the
text trimmed with every occurrence of each configured filtered keyword
removed, not the text unchanged. -/
theorem validate_passthrough_cleaned (cfg : CotConfig) (text : Txt)
    (hTag : hasCotTag cfg text = false) (hAnchor : anchorMatches cfg text = []) :
    safeProcessResponse cfg text =
      .replyOnly (finalizeReplyOnly cfg.filteredKeywords text) := by
  by_cases hne : text = []
  · rw [hne, finalizeReplyOnly_nil]
    rfl
  · simp [safeProcessResponse, splitByFinalAnchor, hAnchor, hne, hTag]

theorem validate_passthrough_cleaned_witness :
    hasCotTag cfg0 "  你好  ".data = false ∧
    anchorMatches cfg0 "  你好  ".data = [] ∧
    safeProcessResponse cfg0 "  你好  ".data =
      .replyOnly (finalizeReplyOnly cfg0.filteredKeywords "  你好  ".data) :=
  ⟨by decide, by decide,
    validate_passthrough_cleaned cfg0 "  你好  ".data (by decide) (by decide)⟩

/-- C7 counterexample: `  你好  ` contains neither an envelope marker
nor an anchor, yet the validator does not return it unchanged — it is
trimmed. -/
theorem validate_passthrough_cex :
    hasCotTag cfg0 "  你好  ".data = false ∧
    anchorMatches cfg0 "  你好  ".data = [] ∧
    safeProcessResponse cfg0 "  你好  ".data ≠ .replyOnly "  你好  ".data := by
  decide

/-- C8 (amended): the reply cleaning is idempotent on every text whose
once-cleaned form is already trimmed and contains no occurrence of any
configured filtered keyword; in general a removal can expose whitespace
or create a fresh keyword occurrence, so a second pass can differ. -/
theorem finalize_idempotent_when_stable (kws : List Txt) (t : Txt)
    (h1 : pyStrip (finalizeReplyOnly kws t) = finalizeReplyOnly kws t)
    (h2 : ∀ kw ∈ kws, containsSubstr (finalizeReplyOnly kws t) kw = false) :
    finalizeReplyOnly kws (finalizeReplyOnly kws t) = finalizeReplyOnly kws t := by
  have hdef : finalizeReplyOnly kws (finalizeReplyOnly kws t) =
      kws.foldl (fun acc kw => removeAllOcc kw acc) (pyStrip (finalizeReplyOnly kws t)) := rfl
  rw [hdef, h1, foldl_removeAllOcc_id kws _ h2]

theorem finalize_idempotent_when_stable_witness :
    pyStrip (finalizeReplyOnly ["x".data] " a ".data) = finalizeReplyOnly ["x".data] " a ".data ∧
    (∀ kw ∈ ["x".data], containsSubstr (finalizeReplyOnly ["x".data] " a ".data) kw = false) ∧
    finalizeReplyOnly ["x".data] (finalizeReplyOnly ["x".data] " a ".data) =
      finalizeReplyOnly ["x".data] " a ".data :=
  ⟨by decide, by decide, finalize_idempotent_when_stable ["x".data] " a ".data (by decide) (by decide)⟩

/-- C8 counterexample: with the filtered keyword `ab`, cleaning `aabb`
once yields `ab` (the removal glues a fresh occurrence together), and a
second cleaning removes it, so the cleaning is not idempotent. -/
theorem finalize_not_idempotent_cex :
    finalizeReplyOnly ["ab".data] (finalizeReplyOnly ["ab".data] "aabb".data) ≠
      finalizeReplyOnly ["ab".data] "aabb".data := by
  decide

lemma lookupGuard_setRetryGuard_self (store : GuardStore) (key : String) :
    lookupGuard (setRetryGuard store key) key =
      (lookupGuard store key).map (fun _ => true) := by
  induction store with
  | nil => rfl
  | cons e rest ih =>
    by_cases h : e.1 = key
    · simp [setRetryGuard, lookupGuard, h]
    · simp [setRetryGuard, lookupGuard, h, ih]

lemma processOnLlmResponse_startRetry_eq (cfg : CotConfig) (store : GuardStore)
    (key : String) (resp : Resp)
    (h : (processOnLlmResponse cfg store key resp).action = .startRetry) :
    processOnLlmResponse cfg store key resp =
      ⟨setRetryGuard store key, .startRetry, true, resp.completionText, []⟩ := by
  unfold processOnLlmResponse at h ⊢
  split_ifs at h ⊢
  all_goals simp_all

/-- C3: the guard is idempotent: if a tracked key with the guard unset
triggers a retry, the invocation flips the guard to set, and every later
invocation for the same key (any response) leaves the store, the
completion text and the logs untouched and starts no retry; unless it is
the provider-error early return, it stops at the guard check. -/
theorem guard_idempotent (cfg : CotConfig) (store : GuardStore) (key : String)
    (resp resp2 : Resp)
    (htracked : lookupGuard store key = some false)
    (hfirst : (processOnLlmResponse cfg store key resp).action = .startRetry) :
    lookupGuard (processOnLlmResponse cfg store key resp).store key = some true ∧
    (processOnLlmResponse cfg (processOnLlmResponse cfg store key resp).store key resp2).store =
      (processOnLlmResponse cfg store key resp).store ∧
    (processOnLlmResponse cfg (processOnLlmResponse cfg store key resp).store key resp2).action ≠
      .startRetry ∧
    (processOnLlmResponse cfg (processOnLlmResponse cfg store key resp).store key resp2).action ≠
      .commit ∧
    (processOnLlmResponse cfg (processOnLlmResponse cfg store key resp).store key resp2).newCompletionText =
      resp2.completionText ∧
    (processOnLlmResponse cfg (processOnLlmResponse cfg store key resp).store key resp2).loggedEntries =
      [] ∧
    (errShortCircuit resp2 = false →
      (processOnLlmResponse cfg (processOnLlmResponse cfg store key resp).store key resp2).action =
        .guardStop) := by
  have h1 := processOnLlmResponse_startRetry_eq cfg store key resp hfirst
  rw [h1]
  have hg : lookupGuard (setRetryGuard store key) key = some true := by
    rw [lookupGuard_setRetryGuard_self, htracked]
    rfl
  refine ⟨hg, ?_⟩
  by_cases herr : errShortCircuit resp2 = true
  · simp [processOnLlmResponse, herr]
  · simp only [Bool.not_eq_true] at herr
    have hhit : retryGuardHit (setRetryGuard store key) key = true := by
      simp [retryGuardHit, hg]
    simp [processOnLlmResponse, herr, hg, hhit]

theorem guard_idempotent_witness :
    lookupGuard [("k", false)] "k" = some false ∧
    (processOnLlmResponse cfg0 [("k", false)] "k" ⟨[], false, false, []⟩).action = .startRetry ∧
    lookupGuard (processOnLlmResponse cfg0 [("k", false)] "k" ⟨[], false, false, []⟩).store "k" =
      some true ∧
    (processOnLlmResponse cfg0
        (processOnLlmResponse cfg0 [("k", false)] "k" ⟨[], false, false, []⟩).store "k"
        ⟨"hi".data, false, false, []⟩).action ≠ .startRetry :=
  ⟨by decide, by decide,
    (guard_idempotent cfg0 [("k", false)] "k" ⟨[], false, false, []⟩
      ⟨"hi".data, false, false, []⟩ (by decide) (by decide)).1,
    (guard_idempotent cfg0 [("k", false)] "k" ⟨[], false, false, []⟩
      ⟨"hi".data, false, false, []⟩ (by decide) (by decide)).2.2.1⟩

/-- C5 (amended): a tool-invocation terminal response never triggers a
retry sequence and never mutates the store; however its text is still
passed to the Structural Validator, and when the key is tracked with the
guard unset and no green-light marker is present, the handler commits:
the completion text is replaced by the validator's cleaned reply (empty
on structural rejection) and a log entry is written. -/
theorem tool_call_no_retry (cfg : CotConfig) (store : GuardStore) (key : String)
    (resp : Resp) (htool : resp.finishToolCalls = true) :
    (processOnLlmResponse cfg store key resp).action ≠ .startRetry ∧
    (processOnLlmResponse cfg store key resp).store = store ∧
    (errShortCircuit resp = false →
      (processOnLlmResponse cfg store key resp).validatorRan = true) ∧
    (errShortCircuit resp = false → lookupGuard store key = some false →
      containsSubstr resp.completionText noResponseMarker = false →
      processOnLlmResponse cfg store key resp =
        ⟨store, .commit, true, commitText cfg resp, [commitLog cfg resp]⟩) := by
  have hnr : needsRetry cfg resp = false := by simp [needsRetry, htool]
  unfold processOnLlmResponse
  split_ifs with h1 h2 h3 h4 h5
  · refine ⟨by simp, rfl, ?_, ?_⟩ <;> intro hf <;> rw [hf] at h1 <;>
      exact (Bool.false_ne_true h1).elim
  · refine ⟨by simp, rfl, fun _ => rfl, ?_⟩
    intro _ hlk _
    rw [hlk] at h2
    simp at h2
  · refine ⟨by simp, rfl, fun _ => rfl, ?_⟩
    intro _ hlk _
    simp [retryGuardHit, hlk] at h3
  · refine ⟨by simp, rfl, fun _ => rfl, ?_⟩
    intro _ _ hc
    rw [hc] at h4
    exact (Bool.false_ne_true h4).elim
  · rw [hnr] at h5
    exact (Bool.false_ne_true h5).elim
  · exact ⟨by simp, rfl, fun _ => rfl, fun _ _ _ => rfl⟩

theorem tool_call_no_retry_witness :
    (⟨"x".data, false, true, []⟩ : Resp).finishToolCalls = true ∧
    (processOnLlmResponse cfg0 [("k", false)] "k" ⟨"x".data, false, true, []⟩).action ≠
      .startRetry ∧
    (processOnLlmResponse cfg0 [("k", false)] "k" ⟨"x".data, false, true, []⟩).store =
      [("k", false)] :=
  ⟨by decide,
    (tool_call_no_retry cfg0 [("k", false)] "k" ⟨"x".data, false, true, []⟩ (by decide)).1,
    (tool_call_no_retry cfg0 [("k", false)] "k" ⟨"x".data, false, true, []⟩ (by decide)).2.1⟩

/-- C5 counterexample: a tool-call response whose text is a structurally
rejected envelope (`<ROSAOS>unfinished`), tracked with the guard unset:
the validator does run on the text, the completion text is not left
untouched (it is replaced by the empty cleaned reply), and a log entry
is written. -/
theorem tool_call_not_untouched_cex :
    (processOnLlmResponse cfg0 [("k", false)] "k"
      ⟨"<ROSAOS>unfinished".data, false, true, []⟩).validatorRan = true ∧
    (processOnLlmResponse cfg0 [("k", false)] "k"
      ⟨"<ROSAOS>unfinished".data, false, true, []⟩).newCompletionText ≠
      "<ROSAOS>unfinished".data ∧
    (processOnLlmResponse cfg0 [("k", false)] "k"
      ⟨"<ROSAOS>unfinished".data, false, true, []⟩).loggedEntries ≠ [] := by
  decide

/-- C10: a response whose text contains `<NO_RESPONSE>`, for a tracked
key with the guard unset, returns before the retry decision: the store
and guard are unchanged, the completion text is exactly as received, and
nothing is logged; the branch taken is the green light (or, if the
provider-error marker pair is also present, the even earlier error
return). -/
theorem green_light_passthrough (cfg : CotConfig) (store : GuardStore) (key : String)
    (resp : Resp)
    (htracked : lookupGuard store key = some false)
    (hmarker : containsSubstr resp.completionText noResponseMarker = true) :
    (processOnLlmResponse cfg store key resp).store = store ∧
    ((processOnLlmResponse cfg store key resp).action = .greenLight ∨
     (processOnLlmResponse cfg store key resp).action = .errReturn) ∧
    (processOnLlmResponse cfg store key resp).newCompletionText = resp.completionText ∧
    (processOnLlmResponse cfg store key resp).loggedEntries = [] ∧
    lookupGuard (processOnLlmResponse cfg store key resp).store key = some false := by
  by_cases herr : errShortCircuit resp = true
  · simp [processOnLlmResponse, herr, htracked]
  · simp only [Bool.not_eq_true] at herr
    simp [processOnLlmResponse, herr, htracked, retryGuardHit, hmarker]

theorem green_light_passthrough_witness :
    lookupGuard [("k", false)] "k" = some false ∧
    containsSubstr "<NO_RESPONSE>".data noResponseMarker = true ∧
    (processOnLlmResponse cfg0 [("k", false)] "k"
      ⟨"<NO_RESPONSE>".data, false, false, []⟩).store = [("k", false)] ∧
    (processOnLlmResponse cfg0 [("k", false)] "k"
      ⟨"<NO_RESPONSE>".data, false, false, []⟩).loggedEntries = [] :=
  ⟨by decide, by decide,
    (green_light_passthrough cfg0 [("k", false)] "k" ⟨"<NO_RESPONSE>".data, false, false, []⟩
      (by decide) (by decide)).1,
    (green_light_passthrough cfg0 [("k", false)] "k" ⟨"<NO_RESPONSE>".data, false, false, []⟩
      (by decide) (by decide)).2.2.2.1⟩

lemma saveThoughtHot_length (L now : Nat) (c : Txt) (l : List ThoughtEntry) :
    (saveThoughtHot L now c l).length = min (l.length + 1) L := by
  unfold saveThoughtHot
  split_ifs with h <;> simp only [List.length_take, List.length_cons] <;>
    simp only [List.length_cons] at h <;> omega

lemma saveThoughtHot_head (L now : Nat) (c : Txt) (l : List ThoughtEntry) (hL : 0 < L) :
    (saveThoughtHot L now c l).head? = some ⟨now, c⟩ := by
  unfold saveThoughtHot
  split_ifs with h
  · cases L with
    | zero => omega
    | succ n => simp [List.take_succ_cons]
  · simp

lemma appendAllThoughts_cons (L : Nat) (sid : Txt) (hd : Nat × Txt) (tl : List (Nat × Txt))
    (init : List ThoughtEntry) :
    appendAllThoughts L sid (hd :: tl) init =
      appendAllThoughts L sid tl (asyncSaveThought L sid hd.1 hd.2 init) := rfl

lemma appendAllThoughts_length (L : Nat) (sid : Txt) (hsid : sid ≠ []) :
    ∀ (items : List (Nat × Txt)) (init : List ThoughtEntry),
      (∀ it ∈ items, it.2 ≠ []) → init.length ≤ L →
      (appendAllThoughts L sid items init).length = min (init.length + items.length) L := by
  intro items
  induction items with
  | nil =>
    intro init _ hinit
    simp only [appendAllThoughts, List.foldl_nil, List.length_nil]
    omega
  | cons hd tl ih =>
    intro init hc hinit
    have hhd : hd.2 ≠ [] := hc hd (by simp)
    have hstep : asyncSaveThought L sid hd.1 hd.2 init = saveThoughtHot L hd.1 hd.2 init := by
      simp [asyncSaveThought, hsid, hhd]
    rw [appendAllThoughts_cons, hstep]
    have hlen := saveThoughtHot_length L hd.1 hd.2 init
    have h2 : (saveThoughtHot L hd.1 hd.2 init).length ≤ L := by omega
    rw [ih _ (fun it hit => hc it (by simp [hit])) h2, hlen]
    simp only [List.length_cons]
    omega

/-- C4: starting from an empty hot tier with limit `0 < L`, after
appending `K > L` entries (non-empty contents, non-empty session id) the
stored list has length exactly `L`, its element at index 0 is the most
recently appended content, and after every prefix of the appends its
length is at most `L`. -/
theorem hot_tier_bound_and_order (L : Nat) (sid : Txt) (items : List (Nat × Txt))
    (hL : 0 < L) (hK : L < items.length) (hsid : sid ≠ [])
    (hc : ∀ it ∈ items, it.2 ≠ []) :
    (appendAllThoughts L sid items []).length = L ∧
    (appendAllThoughts L sid items []).head? =
      items.getLast?.map (fun it => ⟨it.1, it.2⟩) ∧
    ∀ n, (appendAllThoughts L sid (items.take n) []).length ≤ L := by
  refine ⟨?_, ?_, ?_⟩
  · rw [appendAllThoughts_length L sid hsid items [] hc (by simp)]
    simp only [List.length_nil, Nat.zero_add]
    omega
  · rcases List.eq_nil_or_concat items with h | ⟨l2, a, h⟩
    · rw [h] at hK
      simp at hK
    · subst h
      have ha : a.2 ≠ [] := hc a (by simp)
      have hsplit : appendAllThoughts L sid (l2.concat a) [] =
          asyncSaveThought L sid a.1 a.2 (appendAllThoughts L sid l2 []) := by
        simp [appendAllThoughts, List.concat_eq_append, List.foldl_append]
      have hstep : asyncSaveThought L sid a.1 a.2 (appendAllThoughts L sid l2 []) =
          saveThoughtHot L a.1 a.2 (appendAllThoughts L sid l2 []) := by
        simp [asyncSaveThought, hsid, ha]
      rw [hsplit, hstep, saveThoughtHot_head _ _ _ _ hL]
      simp [List.concat_eq_append, List.getLast?_concat]
  · intro n
    have hcn : ∀ it ∈ items.take n, it.2 ≠ [] := fun it hit =>
      hc it (List.take_subset n items hit)
    rw [appendAllThoughts_length L sid hsid (items.take n) [] hcn (by simp)]
    omega

theorem hot_tier_bound_and_order_witness :
    (0 : Nat) < 1 ∧ 1 < [((0 : Nat), "a".data), (1, "b".data)].length ∧
    (appendAllThoughts 1 "s".data [(0, "a".data), (1, "b".data)] []).length = 1 ∧
    (appendAllThoughts 1 "s".data [(0, "a".data), (1, "b".data)] []).head? =
      [((0 : Nat), "a".data), (1, "b".data)].getLast?.map (fun it => ⟨it.1, it.2⟩) :=
  ⟨by decide, by decide,
    (hot_tier_bound_and_order 1 "s".data [(0, "a".data), (1, "b".data)]
      (by decide) (by decide) (by decide) (by decide)).1,
    (hot_tier_bound_and_order 1 "s".data [(0, "a".data), (1, "b".data)]
      (by decide) (by decide) (by decide) (by decide)).2.1⟩

lemma execRetrySequence_cons_fail (cfg : CotConfig) (r : Option Txt)
    (rest : List (Option Txt)) (h : attemptFails cfg r = true) :
    execRetrySequence cfg (r :: rest) = execRetrySequence cfg rest := by
  cases r with
  | none => rfl
  | some t =>
    by_cases ht : t = []
    · simp [execRetrySequence, ht]
    · cases hv : safeProcessResponse cfg t with
      | rejected => simp [execRetrySequence, ht, hv]
      | replyOnly r1 =>
        simp only [attemptFails, hv, decide_eq_true_eq, Bool.or_eq_true, decide_eq_true] at h
        rcases h with h | h
        · exact absurd h ht
        · simp [execRetrySequence, ht, hv, h]
      | thoughtAndReply th r1 =>
        simp only [attemptFails, hv, decide_eq_true_eq, Bool.or_eq_true, decide_eq_true] at h
        rcases h with h | h
        · exact absurd h ht
        · simp [execRetrySequence, ht, hv, h]

/-- C6: if every one of the attempts fails (the attempt list matching
the configured budget), the retry sequence terminates with a definite
failure and writes no thought-log entry; the fallback applied on
exhaustion is exactly the configured fallback text followed by at most
two zero-width (invisible) spaces, varying with the call time. -/
theorem retry_exhaustion_fallback (cfg : CotConfig) (responses : List (Option Txt))
    (nowSec : Nat)
    (_hlen : responses.length = cfg.maxAttempts)
    (hfail : ∀ r ∈ responses, attemptFails cfg r = true)
    (_hfb : cfg.fallbackReply ≠ []) :
    execRetrySequence cfg responses = ⟨false, none, []⟩ ∧
    applyFallback cfg.fallbackReply nowSec =
      cfg.fallbackReply ++ List.replicate (nowSec % 3) zwsp ∧
    (List.replicate (nowSec % 3) zwsp).length < 3 ∧
    ∀ c ∈ List.replicate (nowSec % 3) zwsp, c = zwsp := by
  refine ⟨?_, rfl, by simp only [List.length_replicate]; omega,
    fun c hc => List.eq_of_mem_replicate hc⟩
  clear _hlen
  induction responses with
  | nil => rfl
  | cons r rest ih =>
    rw [execRetrySequence_cons_fail cfg r rest (hfail r (by simp))]
    exact ih (fun x hx => hfail x (by simp [hx]))

theorem retry_exhaustion_fallback_witness :
    ([some "<ROSAOS>unfinished".data, some "<ROSAOS>unfinished".data,
        some "<ROSAOS>unfinished".data] : List (Option Txt)).length = cfg0.maxAttempts ∧
    (∀ r ∈ ([some "<ROSAOS>unfinished".data, some "<ROSAOS>unfinished".data,
        some "<ROSAOS>unfinished".data] : List (Option Txt)), attemptFails cfg0 r = true) ∧
    execRetrySequence cfg0 [some "<ROSAOS>unfinished".data, some "<ROSAOS>unfinished".data,
        some "<ROSAOS>unfinished".data] = ⟨false, none, []⟩ ∧
    applyFallback cfg0.fallbackReply 5 =
      cfg0.fallbackReply ++ List.replicate (5 % 3) zwsp :=
  ⟨by decide, by decide,
    (retry_exhaustion_fallback cfg0
      [some "<ROSAOS>unfinished".data, some "<ROSAOS>unfinished".data,
        some "<ROSAOS>unfinished".data] 5 (by decide) (by decide) (by decide)).1,
    (retry_exhaustion_fallback cfg0
      [some "<ROSAOS>unfinished".data, some "<ROSAOS>unfinished".data,
        some "<ROSAOS>unfinished".data] 5 (by decide) (by decide) (by decide)).2.1⟩

lemma concOrchestrateAux_sizes (base growth mcap acap : Nat) (outcomes : Nat → Nat → Bool) :
    ∀ (fuel remaining batchIdx s : Nat),
      s ∈ (concOrchestrateAux base growth mcap acap outcomes fuel remaining batchIdx).2 →
      s ≤ mcap ∧ s ≤ acap ∧ s ≤ remaining := by
  intro fuel
  induction fuel with
  | zero =>
    intro remaining batchIdx s hs
    simp [concOrchestrateAux] at hs
  | succ n ih =>
    intro remaining batchIdx s hs
    unfold concOrchestrateAux at hs
    by_cases h0 : concBatchSize base growth mcap acap batchIdx remaining = 0
    · simp [h0] at hs
    · rw [if_neg h0] at hs
      cases hX : (runConcBatch ((List.range
          (concBatchSize base growth mcap acap batchIdx remaining)).map
          (outcomes batchIdx))).1 with
      | some i =>
        rw [hX] at hs
        simp only [List.mem_singleton] at hs
        subst hs
        refine ⟨?_, ?_, ?_⟩ <;> simp [concBatchSize]
      | none =>
        rw [hX] at hs
        simp only [List.mem_cons] at hs
        rcases hs with rfl | hs
        · refine ⟨?_, ?_, ?_⟩ <;> simp [concBatchSize]
        · have h3 := ih _ _ _ hs
          exact ⟨h3.1, h3.2.1, by omega⟩

/-- C9: (modelled from the spec, see `concOrchestrate`) the speculative
strategy issues batches never exceeding the multiplier cap, the absolute
cap or the remaining attempts, with the batch size following the
`min(base*growth^(batch-1), …)` rule (second/third conjuncts evaluate it
across growing batches); the first validating task wins and the other
tasks of the batch are cancelled/discarded — with a stub succeeding on
the 3rd of 5 concurrent calls, the batch reports success at index 2 and
the other 4 tasks are discarded. -/
theorem concurrent_batch_strategy :
    (∀ (base growth mcap acap : Nat) (outcomes : Nat → Nat → Bool)
        (remaining batchIdx s : Nat),
        s ∈ (concOrchestrate base growth mcap acap outcomes remaining batchIdx).2 →
        s ≤ mcap ∧ s ≤ acap ∧ s ≤ remaining) ∧
    concOrchestrate 5 2 10 10 (fun _ j => j = 2) 5 1 = (some (1, 2), [5]) ∧
    concOrchestrate 2 2 10 10 (fun _ _ => false) 5 1 = (none, [2, 3]) ∧
    runConcBatch [false, false, true, false, false] =
      (some 2, [.discarded, .discarded, .won, .discarded, .discarded]) ∧
    (runConcBatch [false, false, true, false, false]).2.count .discarded = 4 :=
  ⟨fun base growth mcap acap outcomes remaining batchIdx s hs =>
    concOrchestrateAux_sizes base growth mcap acap outcomes remaining remaining batchIdx s hs,
   by decide, by decide, by decide, by decide⟩

theorem concurrent_batch_strategy_witness :
    2 ∈ (concOrchestrate 2 2 10 10 (fun _ _ => false) 5 1).2 ∧ 2 ≤ 10 ∧ 2 ≤ 10 ∧ 2 ≤ 5 :=
  ⟨by decide,
    concurrent_batch_strategy.1 2 2 10 10 (fun _ _ => false) 5 1 2 (by decide)⟩
